import Mathlib

/-!
# zmq4: the PULL socket shell and the REQ/REP test tasks

A shallow embedding of `pull.go` and of the two tasks of `TestReqRep`
(`zmq4_reqrep_test.go`), together with models, taken from the specification,
of the parts of the core they run on: the fair-queued receive behind
`pullSocket.Recv` and the REQ and REP policies over one connection.

Conventions of the embedding.

* A Go `error` is `Option GoError`; `none` is `nil`.
* A Go method on a socket is a function from the state before the call to
  `Option (result × state after)`; `none` stands for a call that never
  returns (it blocks for ever).
* A `[]byte` and a Go `string` are both a list of bytes.
-/

namespace Zmq4

/-! ## Errors (`github.com/pkg/errors`) -/

/-- Modelled from the spec: the error kinds of section 7 (their declarations
are not part of `pull.go`). -/
inductive ErrorKind
  | NotSendable | NotReceivable | UnknownOption | InvalidOption
  | BindFailed | ConnectionRefused | ProtocolViolation
  | MalformedFrame | FrameTooLarge | UnexpectedEOF
  | UnsupportedProtocol | MechanismMismatch | AuthenticationFailure
  | HostUnreachable | WouldBlock | Closed | Canceled | CloseTimeout
  deriving DecidableEq, Repr

/-- A non-nil error value.  `fundamental` is what `errors.Errorf` builds,
`withMessage` what `errors.Wrapf` builds around a non-nil cause (the recorded
stack trace is not observable through `Error()` and is left out).  `kind` is
an error of one of the kinds of section 7 of the spec, raised by the core. -/
inductive GoError
  | fundamental (msg : String)
  | withMessage (cause : GoError) (msg : String)
  | kind (k : ErrorKind)
  deriving DecidableEq, Repr

/-- A Go `error`: `none` is `nil`. -/
abbrev error := Option GoError

/-- The text `Error()` returns.  The spec gives the errors of section 7 a name
only, so the text of a `kind` error is not determined (`none`). -/
def GoError.Error : GoError → Option String
  | .fundamental msg => some msg
  | .withMessage cause msg => (cause.Error).map (fun c => msg ++ ": " ++ c)
  | .kind _ => none

namespace errors

/-- The call `errors.Errorf(format)` without operands: `msg` is the formatted
text, which for a format without verbs is the format itself. -/
def Errorf (msg : String) : error :=
  some (GoError.fundamental msg)

/-- The call `errors.Wrapf(err, format, args...)`, `msg` being the formatted
text: `nil` when `err` is `nil`, otherwise `err` annotated with `msg`. -/
def Wrapf (err : error) (msg : String) : error :=
  match err with
  | none => none
  | some cause => some (GoError.withMessage cause msg)

end errors

/-! ## Messages and socket types -/

/-- A byte string: a Go `[]byte`, or a Go `string`. -/
abbrev Bytes := List UInt8

/-- The bytes of a string literal (all literals of the sources are ASCII). -/
def bytes (s : String) : Bytes :=
  s.toList.map (fun c => UInt8.ofNat c.toNat)

/-- Modelled from the spec: `zmtp.Msg`, declared in the package `zmtp`; section
3 makes it an ordered sequence of frame bodies, which the test reads as
`msg.Frames`. -/
structure Msg where
  Frames : List Bytes
  deriving DecidableEq, Repr

/-- Modelled from the spec: `zmtp.NewMsgString`, of the package `zmtp`; scenario
S1 writes the message it builds from `"NAME"` as the single frame `["NAME"]`. -/
def NewMsgString (s : String) : Msg :=
  { Frames := [bytes s] }

/-- Modelled from the spec: the closed enumeration `SocketType` of section 3
(it is declared in the core of the package). -/
inductive SocketType
  | Req | Rep | Dealer | Router | Pub | XPub | Sub | XSub | Push | Pull | Pair
  deriving DecidableEq, Repr

/-! ## The public interface and the core socket -/

/-- The outcome of a call: `none` when the call never returns, otherwise the
values it returns and the state it leaves. -/
abbrev Call (σ ρ : Type) := σ → Option (ρ × σ)

/-- Modelled from the spec: the interface `Socket`, declared in the core of the
package; its operations are the public operations of section 6, with the Go signatures
`pull.go` implements.  `Val` is `interface{}` (whose `nil` is `none`). -/
structure Socket (σ Val : Type) where
  Close : Call σ error
  Send : Msg → Call σ error
  Recv : Call σ (Msg × error)
  Listen : String → Call σ error
  Dial : String → Call σ error
  Type' : Call σ SocketType
  GetOption : String → Call σ (Option Val × error)
  SetOption : String → Option Val → Call σ error

/-- The types the core socket is built from, none of which `pull.go` declares
or inspects: the context, the constructor options, option values, the option map,
listeners, connections, the reader and the writer. -/
structure Kit where
  Ctx : Type
  Opt : Type
  Val : Type
  Props : Type
  Listener : Type
  Conn : Type
  Reader : Type
  Writer : Type

/-- Modelled from the spec: the core `socket` struct, which `pull.go` uses and
does not declare.  Section 3 lists what a socket owns: a type, an option map,
listeners, connections, per-type policy state (the reader `r`) and, once
closed, the fact that it is closed.  `w` is the writer field `NewPull`
assigns; it can be `nil`. -/
structure socket (κ : Kit) where
  typ : SocketType
  props : κ.Props
  listeners : List κ.Listener
  conns : List κ.Conn
  r : κ.Reader
  w : Option κ.Writer
  closed : Bool

/-- The core socket as `pull.go` uses it, its code being elsewhere in the
package: the constructor `newSocket` and the methods of `*socket`. -/
structure Core (κ : Kit) extends Socket (socket κ) κ.Val where
  newSocket : κ.Ctx → SocketType → List κ.Opt → socket κ

/-! ## `pull.go` -/

/-- The struct `pullSocket`: a PULL ZeroMQ socket. -/
structure pullSocket (κ : Kit) where
  sck : socket κ

/-- `NewPull` returns a new PULL ZeroMQ socket. -/
def NewPull {κ : Kit} (C : Core κ) (ctx : κ.Ctx) (opts : List κ.Opt) : pullSocket κ :=
  let pull : pullSocket κ := { sck := C.newSocket ctx SocketType.Pull opts }
  let pull : pullSocket κ := { pull with sck := { pull.sck with w := none } }
  pull

namespace pullSocket

variable {κ : Kit}

/-- `Close` closes the open socket. -/
def Close (C : Core κ) (pull : pullSocket κ) : Option (error × pullSocket κ) := do
  let (err, sck) ← C.Close pull.sck
  return (err, { pull with sck := sck })

/-- `Send` on a PULL socket: the receiver is not named and the message is not
used. -/
def Send (pull : pullSocket κ) (_msg : Msg) : Option (error × pullSocket κ) :=
  some (errors.Errorf "zmq4: PULL sockets can't send messages", pull)

/-- `Recv` receives a complete message. -/
def Recv (C : Core κ) (pull : pullSocket κ) : Option ((Msg × error) × pullSocket κ) := do
  let (res, sck) ← C.Recv pull.sck
  return (res, { pull with sck := sck })

/-- `Listen` connects a local endpoint to the socket. -/
def Listen (C : Core κ) (ep : String) (pull : pullSocket κ) :
    Option (error × pullSocket κ) := do
  let (err, sck) ← C.Listen ep pull.sck
  return (err, { pull with sck := sck })

/-- `Dial` connects a remote endpoint to the socket. -/
def Dial (C : Core κ) (ep : String) (pull : pullSocket κ) :
    Option (error × pullSocket κ) := do
  let (err, sck) ← C.Dial ep pull.sck
  return (err, { pull with sck := sck })

/-- `Type` returns the type of this socket. -/
def Type' (C : Core κ) (pull : pullSocket κ) : Option (SocketType × pullSocket κ) := do
  let (typ, sck) ← C.Type' pull.sck
  return (typ, { pull with sck := sck })

/-- `GetOption` retrieves an option of the socket. -/
def GetOption (C : Core κ) (name : String) (pull : pullSocket κ) :
    Option ((Option κ.Val × error) × pullSocket κ) := do
  let (res, sck) ← C.GetOption name pull.sck
  return (res, { pull with sck := sck })

/-- `SetOption` sets an option of the socket. -/
def SetOption (C : Core κ) (name : String) (value : Option κ.Val) (pull : pullSocket κ) :
    Option (error × pullSocket κ) := do
  let (err, sck) ← C.SetOption name value pull.sck
  return (err, { pull with sck := sck })

/-- The assertion `var _ Socket = (*pullSocket)(nil)`: a `pullSocket` over a
core is a `Socket`. -/
def asSocket (C : Core κ) : Socket (pullSocket κ) κ.Val where
  Close := Close C
  Send := fun msg pull => Send pull msg
  Recv := Recv C
  Listen := Listen C
  Dial := Dial C
  Type' := Type' C
  GetOption := GetOption C
  SetOption := SetOption C

end pullSocket

/-- The transparent shell over a core operation, in the words of the spec (a
thin wrapper delegating to the shared core): the call on the wrapper returns
when the core call on the wrapped socket returns, with the same results, and
the wrapper then holds the core socket as the core call left it. -/
def shell {κ : Kit} {ρ : Type} (op : Call (socket κ) ρ) : Call (pullSocket κ) ρ :=
  fun pull => (op pull.sck).map (fun res => (res.1, { sck := res.2 }))

/-! ## The tasks of `TestReqRep` (`zmq4_reqrep_test.go`) -/

namespace reflect

/-- The call `reflect.DeepEqual(got, want)` on two messages: the frames are
compared one by one, byte by byte (a nil slice and an empty one are the same
list here). -/
def DeepEqual (got want : Msg) : Bool :=
  decide (got = want)

end reflect

/-- How a task ends: it returns `err`, a socket call of it never returns, it
panics (an index out of range), or it is still in its loop when the fuel given
to it is used up.  `s` is the socket as the task leaves it. -/
inductive Outcome (σ : Type)
  | returned (err : error) (s : σ)
  | blocked
  | panicked (s : σ)
  | running (s : σ)

/-- The request `reqName` of `TestReqRep`. -/
def reqName : Msg := NewMsgString "NAME"
/-- The request `reqLang` of `TestReqRep`. -/
def reqLang : Msg := NewMsgString "LANG"
/-- The request `reqQuit` of `TestReqRep`. -/
def reqQuit : Msg := NewMsgString "QUIT"
/-- The reply `repName` of `TestReqRep`. -/
def repName : Msg := NewMsgString "zmq4"
/-- The reply `repLang` of `TestReqRep`. -/
def repLang : Msg := NewMsgString "Go"
/-- The reply `repQuit` of `TestReqRep`. -/
def repQuit : Msg := NewMsgString "bye"

section tasks

variable {σ Val : Type}

/-- The `switch string(msg.Frames[0])` of the replier: the reply chosen and the
value of `loop` after it.  Without a matching case `rep` keeps the zero value
of `zmtp.Msg` and `loop` stays true. -/
def replierSwitch (frame0 : Bytes) : Msg × Bool :=
  if frame0 = bytes "NAME" then (repName, true)
  else if frame0 = bytes "LANG" then (repLang, true)
  else if frame0 = bytes "QUIT" then (repQuit, false)
  else ({ Frames := [] }, true)

/-- The `for loop { ... }` of the replier task followed by its `return err`;
`err0` is the variable `err` of the enclosing function, which the loop body
shadows.  `Sprintf` is `fmt.Sprintf` on messages. -/
def replierLoop (S : Socket σ Val) (Sprintf : String → List Msg → String) (err0 : error) :
    Nat → σ → Outcome σ
  | 0, s => Outcome.running s
  | fuel + 1, s =>
    match S.Recv s with
    | none => Outcome.blocked
    | some ((msg, err), s) =>
      if err ≠ none then
        Outcome.returned (errors.Wrapf err "could not recv REQ message") s
      else
        match msg.Frames with
        | [] => Outcome.panicked s
        | frame0 :: _ =>
          match S.Send (replierSwitch frame0).1 s with
          | none => Outcome.blocked
          | some (err, s) =>
            if err ≠ none then
              Outcome.returned
                (errors.Wrapf err (Sprintf "could not send REP message to %v" [msg])) s
            else if (replierSwitch frame0).2 then replierLoop S Sprintf err0 fuel s
            else Outcome.returned err0 s

/-- The replier task of `TestReqRep`, run on the socket `tc.rep`. -/
def replier (S : Socket σ Val) (Sprintf : String → List Msg → String) (ep : String)
    (fuel : Nat) (s : σ) : Outcome σ :=
  match S.Listen ep s with
  | none => Outcome.blocked
  | some (err, s) =>
    if err ≠ none then Outcome.returned (errors.Wrapf err "could not listen") s
    else replierLoop S Sprintf err fuel s

/-- The three rounds the requester ranges over: request and expected reply. -/
def rounds : List (Msg × Msg) :=
  [(reqName, repName), (reqLang, repLang), (reqQuit, repQuit)]

/-- The `for _, msg := range ...` of the requester task followed by its
`return err`; `err` is the variable of the enclosing function, which `Send`
assigns, while `rep, err := tc.req.Recv()` declares a new one in the body. -/
def requesterLoop (S : Socket σ Val) (Sprintf : String → List Msg → String) :
    List (Msg × Msg) → error → σ → Outcome σ
  | [], err, s => Outcome.returned err s
  | msg :: rest, _, s =>
    match S.Send msg.1 s with
    | none => Outcome.blocked
    | some (err, s) =>
      if err ≠ none then
        Outcome.returned
          (errors.Wrapf err (Sprintf "could not send REQ message %v" [msg.1])) s
      else
        match S.Recv s with
        | none => Outcome.blocked
        | some ((rep, err'), s) =>
          if err' ≠ none then
            Outcome.returned
              (errors.Wrapf err' (Sprintf "could not recv REP message %v" [msg.1])) s
          else if ¬ reflect.DeepEqual rep msg.2 then
            Outcome.returned
              (errors.Wrapf err' (Sprintf "got = %v, want= %v" [rep, msg.2])) s
          else requesterLoop S Sprintf rest err s

/-- The requester task of `TestReqRep`, run on the socket `tc.req`. -/
def requester (S : Socket σ Val) (Sprintf : String → List Msg → String) (ep : String)
    (s : σ) : Outcome σ :=
  match S.Dial ep s with
  | none => Outcome.blocked
  | some (err, s) =>
    if err ≠ none then Outcome.returned (errors.Wrapf err "could not dial") s
    else requesterLoop S Sprintf rounds err s

end tasks

/-! ## A scripted socket: the environment of one task -/

/-- A socket whose answers are laid down in advance.  `inbox` holds what the
coming calls of `Recv` return, in order, and a `Recv` on an empty inbox never
returns; the `k`-th call of `Send` (counted from 0) returns `sendErr k`;
`sent` is the log of the messages passed to `Send`. -/
structure Script where
  listen : error
  dial : error
  inbox : List (Msg × error)
  sendErr : Nat → error
  sent : List Msg

/-- The scripted socket as a `Socket`. -/
def Script.asSocket : Socket Script Unit where
  Close := fun s => some (none, s)
  Send := fun msg s => some (s.sendErr s.sent.length, { s with sent := s.sent ++ [msg] })
  Recv := fun s =>
    match s.inbox with
    | [] => none
    | res :: rest => some (res, { s with inbox := rest })
  Listen := fun _ s => some (s.listen, s)
  Dial := fun _ s => some (s.dial, s)
  Type' := fun s => some (SocketType.Rep, s)
  GetOption := fun _ s => some ((none, none), s)
  SetOption := fun _ _ s => some (none, s)

/-- The reply the replier owes to a request, in the words of scenario S1:
`zmq4` for `NAME`, `Go` for `LANG`, `bye` for `QUIT`. -/
def expectedReply (req : Msg) : Option Msg :=
  match req.Frames.head? with
  | none => none
  | some frame0 =>
    if frame0 = bytes "NAME" then some (NewMsgString "zmq4")
    else if frame0 = bytes "LANG" then some (NewMsgString "Go")
    else if frame0 = bytes "QUIT" then some (NewMsgString "bye")
    else none

/-- Whether the first frame of a request is `QUIT`. -/
def isQuit (req : Msg) : Bool :=
  decide (req.Frames.head? = some (bytes "QUIT"))

/-- Whether the first frame of a request is one of `NAME`, `LANG`, `QUIT`. -/
def isRequest (req : Msg) : Bool :=
  decide (req.Frames.head? = some (bytes "NAME")) ||
  decide (req.Frames.head? = some (bytes "LANG")) ||
  decide (req.Frames.head? = some (bytes "QUIT"))

/-- The script of a replier run: the requests `NAME`, `LANG`, `QUIT` and one
more `NAME` arrive without error, and every reply is sent without error. -/
def replierScript : Script :=
  { listen := none, dial := none,
    inbox := [(reqName, none), (reqLang, none), (reqQuit, none), (reqName, none)],
    sendErr := fun _ => none, sent := [] }

/-- The script of a requester run in which the first reply is wrong: `Dial`
and `Send` succeed and `Recv` returns the message `nope`, without error, where
`zmq4` is expected. -/
def wrongReplyScript : Script :=
  { listen := none, dial := none, inbox := [(NewMsgString "nope", none)],
    sendErr := fun _ => none, sent := [] }

/-! ## The fair-queue core (component F of the spec, for PULL) -/

/-- Modelled from the spec: a connection as the fair-queue policy sees it
(section 4.C), that is the messages its reader has put on the inbound channel
and the application has not received yet, oldest first. -/
structure Peer where
  inq : List Msg
  deriving DecidableEq, Repr

/-- The kit of the fair-queue core: connections carry an inbound queue and the
reader is the read cursor; the other types stay those of `κ`. -/
@[reducible] def fqKit (κ : Kit) : Kit :=
  { κ with Conn := Peer, Reader := Nat }

/-- The scan of the fair-queue cursor: starting at connection `i` (counted
round the ring of connections) and trying `left` connections, the first
connection with a queued message, with that message and the rest of its
queue.  A connection with an empty queue is passed over. -/
def fairScan (conns : List Peer) : Nat → Nat → Option (Nat × Msg × List Msg)
  | 0, _ => none
  | left + 1, i =>
    match conns[i % conns.length]? with
    | some { inq := m :: rest } => some (i % conns.length, m, rest)
    | _ => fairScan conns left (i + 1)

/-- Modelled from the spec: the fair-queued receive of section 4.F, which is in
the core, behind `pullSocket.Recv`: "strict round-robin over connections with at
least one queued message; a connection with an empty queue is skipped without
advancing the cursor".  One message is taken from the first ready connection
at or after the cursor, and the cursor then stands behind that connection;
with no message queued anywhere the cursor stays and there is no result. -/
def fairQueue (cursor : Nat) (conns : List Peer) : Option (Msg × List Peer × Nat) :=
  match fairScan conns conns.length cursor with
  | none => none
  | some (i, m, rest) => some (m, conns.set i { inq := rest }, (i + 1) % conns.length)

/-- Modelled from the spec: the core socket of sections 4.E and 4.F as far as
the spec fixes it for a fair-queued type, the code of the core being elsewhere.
The constructor records the type and starts unbound, open, with the cursor at
0; `Type` returns the recorded type; `Close` leaves the socket closed, without
listeners or connections; `Recv` fails with `Closed` on a closed socket, with
`NotReceivable` for PUSH and PUB, fair-queues for PULL and DEALER and does not
return while no message is queued.  Whatever the spec leaves open for this
model (the other operations, `Recv` of the other types, the initial options
and writer) is taken from `base`. -/
def fairQueueCore {κ : Kit} (base : Core (fqKit κ)) : Core (fqKit κ) :=
  { base with
    newSocket := fun ctx typ opts =>
      { base.newSocket ctx typ opts with
        typ := typ, listeners := [], conns := [], r := (0 : Nat), closed := false }
    Type' := fun s => some (s.typ, s)
    Close := fun s => some (none, { s with listeners := [], conns := [], closed := true })
    Recv := fun s =>
      if s.closed then some (({ Frames := [] }, some (GoError.kind ErrorKind.Closed)), s)
      else
        match s.typ with
        | SocketType.Push | SocketType.Pub =>
          some (({ Frames := [] }, some (GoError.kind ErrorKind.NotReceivable)), s)
        | SocketType.Pull | SocketType.Dealer =>
          match fairQueue (show Nat from s.r) (show List Peer from s.conns) with
          | none => none
          | some (m, conns, cursor) => some ((m, none), { s with conns := conns, r := cursor })
        | _ => base.Recv s }

/-- The kit of the smallest instance: no information in any of the open
types. -/
def unitKit : Kit :=
  { Ctx := Unit, Opt := Unit, Val := Unit, Props := Unit, Listener := Unit,
    Conn := Unit, Reader := Unit, Writer := Unit }

/-- A core over `fqKit unitKit` whose operations all return `nil` at once and
change nothing: the `base` of the smallest fair-queue core. -/
def idleCore : Core (fqKit unitKit) where
  newSocket := fun _ typ _ =>
    { typ := typ, props := (), listeners := [], conns := [], r := (0 : Nat),
      w := some (), closed := false }
  Close := fun s => some (none, s)
  Send := fun _ s => some (none, s)
  Recv := fun s => some (({ Frames := [] }, none), s)
  Listen := fun _ s => some (none, s)
  Dial := fun _ s => some (none, s)
  Type' := fun s => some (s.typ, s)
  GetOption := fun _ s => some ((none, none), s)
  SetOption := fun _ _ s => some (none, s)

/-- The smallest fair-queue core. -/
def pullCore : Core (fqKit unitKit) :=
  fairQueueCore idleCore

/-- The results of `n` consecutive calls of `Recv` on a PULL socket, in order,
and the socket after them; no result when one of the calls does not
return. -/
def recvN {κ : Kit} (C : Core κ) : Nat → pullSocket κ →
    Option (List (Msg × error) × pullSocket κ)
  | 0, pull => some ([], pull)
  | n + 1, pull =>
    match pullSocket.Recv C pull with
    | none => none
    | some (res, pull) =>
      match recvN C n pull with
      | none => none
      | some (out, pull) => some (res :: out, pull)

/-- A PULL socket of the fair-queue core with one ready peer for each message
of `msgs`, each peer having sent its one message, and the read cursor at
`cursor`. -/
def pullWithPeers (msgs : List Msg) (cursor : Nat) : pullSocket (fqKit unitKit) :=
  let pull := NewPull pullCore () []
  { pull with sck := { pull.sck with conns := msgs.map (fun m => ({ inq := [m] } : Peer)),
                                     r := cursor } }

/-! ## The REQ and REP policies over one connection (scenario S1) -/

/-- Modelled from the spec: the envelope of a message and what follows it
(section 4.F); the envelope is "all frames up to and including the first empty
delimiter", and a message without an empty frame has none. -/
def splitEnvelope : List Bytes → Option (List Bytes × List Bytes)
  | [] => none
  | frame :: rest =>
    if frame = [] then some ([frame], rest)
    else
      match splitEnvelope rest with
      | none => none
      | some (envelope, body) => some (frame :: envelope, body)

/-- Modelled from the spec: a REQ socket dialed to a listening REP socket; the
code of both is elsewhere in the package.  The connection between them is in the Ready state
and carries messages whole and in order (sections 5 and 8: order is preserved
between two connected peers, and frames round-trip), so each direction is the
queue of the messages on their way.  `awaiting` is the request-in-flight flag
of the REQ socket, `pending` the saved envelope of the REP socket. -/
structure ReqRep where
  awaiting : Bool
  pending : Option (List Bytes)
  toRep : List Msg
  toReq : List Msg
  deriving DecidableEq, Repr

/-- A connected pair at rest: no request in flight, no reply owed, nothing on
the connection. -/
def ReqRep.idle : ReqRep :=
  { awaiting := false, pending := none, toRep := [], toReq := [] }

namespace ReqRep

/-- Modelled from the spec: `Send` of the REQ policy (section 4.F), whose code
is elsewhere: "legal only when not awaiting reply; prepends empty delimiter frame;
sets awaiting-reply".  The spec names no error for the illegal call; it is the
parameter `illegal`. -/
def reqSend (illegal : GoError) (msg : Msg) : Call ReqRep error := fun p =>
  if p.awaiting then some (some illegal, p)
  else some (none, { p with awaiting := true,
                            toRep := p.toRep ++ [{ Frames := [] :: msg.Frames }] })

/-- Modelled from the spec: `Recv` of the REP policy (section 4.F), whose code
is elsewhere: "legal only when no pending reply; stores envelope (all frames up to
and including the first empty delimiter)"; it blocks until a message is
available.  A message without a delimiter is dropped. -/
def repRecv (illegal : GoError) : Call ReqRep (Msg × error) := fun p =>
  if p.pending.isSome then some (({ Frames := [] }, some illegal), p)
  else
    let rec next : List Msg → Option ((Msg × error) × ReqRep)
      | [] => none
      | wire :: rest =>
        match splitEnvelope wire.Frames with
        | none => next rest
        | some (envelope, body) =>
          some (({ Frames := body }, none), { p with pending := some envelope, toRep := rest })
    next p.toRep

/-- Modelled from the spec: `Send` of the REP policy (section 4.F), whose code
is elsewhere: "legal only after Recv; must reply using the saved envelope; clears
pending". -/
def repSend (illegal : GoError) (msg : Msg) : Call ReqRep error := fun p =>
  match p.pending with
  | none => some (some illegal, p)
  | some envelope =>
    some (none, { p with pending := none,
                         toReq := p.toReq ++ [{ Frames := envelope ++ msg.Frames }] })

/-- Modelled from the spec: `Recv` of the REQ policy (section 4.F), whose code
is elsewhere: "legal only when awaiting reply; strips the envelope; clears
awaiting-reply"; it blocks until a message is available.  A message without a
delimiter is dropped. -/
def reqRecv (illegal : GoError) : Call ReqRep (Msg × error) := fun p =>
  if ¬ p.awaiting then some (({ Frames := [] }, some illegal), p)
  else
    let rec next : List Msg → Option ((Msg × error) × ReqRep)
      | [] => none
      | wire :: rest =>
        match splitEnvelope wire.Frames with
        | none => next rest
        | some (_, body) =>
          some (({ Frames := body }, none), { p with awaiting := false, toReq := rest })
    next p.toReq

/-- What the four calls of one round return. -/
structure Round where
  sendReq : error
  served : Msg × error
  sendRep : error
  reply : Msg × error
  deriving DecidableEq, Repr

/-- One round of scenario S1: the REQ socket sends `req`, the REP socket
receives, the REP socket sends `rep`, the REQ socket receives.  The result is
what the four calls return and the pair after the round; there is none when
one of the four calls does not return. -/
def round (illegal : GoError) (req rep : Msg) (p : ReqRep) : Option (Round × ReqRep) := do
  let (e1, p) ← reqSend illegal req p
  let (got, p) ← repRecv illegal p
  let (e2, p) ← repSend illegal rep p
  let (back, p) ← reqRecv illegal p
  return ({ sendReq := e1, served := got, sendRep := e2, reply := back }, p)

/-- The rounds of a list of request and reply pairs, one after the other. -/
def run (illegal : GoError) : List (Msg × Msg) → ReqRep → Option (List Round × ReqRep)
  | [], p => some ([], p)
  | (req, rep) :: rest, p =>
    match round illegal req rep p with
    | none => none
    | some (res, p) =>
      match run illegal rest p with
      | none => none
      | some (out, p) => some (res :: out, p)

end ReqRep

/-! ## Theorems: `pull.go` -/

/-- C1: for every message and every PULL socket, whatever its state, `Send`
returns a non-nil error, always the same one, whose text is
"zmq4: PULL sockets can't send messages"; it never returns nil, and the error
does not depend on the message or on the socket. -/
theorem pull_send_returns_fixed_error {κ : Kit} (pull : pullSocket κ) (msg : Msg) :
    (pullSocket.Send pull msg).map Prod.fst
        = some (some (GoError.fundamental "zmq4: PULL sockets can't send messages"))
      ∧ (GoError.fundamental "zmq4: PULL sockets can't send messages").Error
        = some "zmq4: PULL sockets can't send messages"
      ∧ (pullSocket.Send pull msg).map Prod.fst ≠ some none
      ∧ ∀ (pull' : pullSocket κ) (msg' : Msg),
          (pullSocket.Send pull' msg').map Prod.fst = (pullSocket.Send pull msg).map Prod.fst := by
  refine ⟨rfl, rfl, ?_, fun _ _ => rfl⟩
  simp [pullSocket.Send, errors.Errorf]

/-- C2, as the spec states it, fails: on the PULL socket of the fair-queue core
that has been closed, `Recv` returns the `Closed` error while `Send` returns an
error that is not `Closed`. -/
theorem pull_send_after_close_is_not_closed :
    ∃ closedPull : pullSocket (fqKit unitKit),
      pullSocket.Close pullCore (NewPull pullCore () []) = some (none, closedPull)
      ∧ closedPull.sck.closed = true
      ∧ (pullSocket.Recv pullCore closedPull).map (fun res => res.1.2)
          = some (some (GoError.kind ErrorKind.Closed))
      ∧ ¬ ∀ msg : Msg, (pullSocket.Send closedPull msg).map Prod.fst
          = some (some (GoError.kind ErrorKind.Closed)) := by
  refine ⟨_, rfl, rfl, rfl, ?_⟩
  intro h
  have h0 := h reqName
  simp [pullSocket.Send, errors.Errorf] at h0

/-- C2, amended: after `Close` has returned on a PULL socket over any core,
every later `Send` returns the same error as before `Close`, the one whose text
is "zmq4: PULL sockets can't send messages", and leaves the closed socket as it
is; it is not an error of the kind `Closed`. -/
theorem pull_send_after_close {κ : Kit} (C : Core κ) (pull closedPull : pullSocket κ)
    (err : error) (msg : Msg)
    (hclose : pullSocket.Close C pull = some (err, closedPull)) :
    pullSocket.Send closedPull msg
        = some (some (GoError.fundamental "zmq4: PULL sockets can't send messages"), closedPull)
      ∧ (pullSocket.Send closedPull msg).map Prod.fst = (pullSocket.Send pull msg).map Prod.fst
      ∧ (pullSocket.Send closedPull msg).map Prod.fst
          ≠ some (some (GoError.kind ErrorKind.Closed)) := by
  have _ := hclose
  refine ⟨rfl, rfl, ?_⟩
  simp [pullSocket.Send, errors.Errorf]

/-- Witness of `pull_send_after_close`: the PULL socket of the fair-queue core,
closed, then sent `NAME`. -/
theorem pull_send_after_close_witness :
    pullSocket.Close pullCore (NewPull pullCore () [])
        = some (none, { sck := { (NewPull pullCore () []).sck with closed := true } })
      ∧ (pullSocket.Send ({ sck := { (NewPull pullCore () []).sck with closed := true } } :
            pullSocket (fqKit unitKit)) reqName).map Prod.fst
          ≠ some (some (GoError.kind ErrorKind.Closed)) :=
  ⟨rfl, (pull_send_after_close pullCore (NewPull pullCore () []) _ none reqName rfl).2.2⟩

/-- C3: the PULL socket is a transparent shell over its core socket: each of
`Close`, `Recv`, `Listen`, `Dial`, `Type`, `GetOption` and `SetOption` on the
wrapper returns exactly when, and exactly what, the same call returns on the
wrapped core socket, and leaves the wrapper holding the core socket as the core
call left it; the message and error of `Recv` are the core ones. -/
theorem pull_is_transparent_shell {κ : Kit} (C : Core κ) (pull : pullSocket κ)
    (ep name : String) (value : Option κ.Val) :
    pullSocket.Close C pull = shell C.Close pull
      ∧ pullSocket.Recv C pull = shell C.Recv pull
      ∧ pullSocket.Listen C ep pull = shell (C.Listen ep) pull
      ∧ pullSocket.Dial C ep pull = shell (C.Dial ep) pull
      ∧ pullSocket.Type' C pull = shell C.Type' pull
      ∧ pullSocket.GetOption C name pull = shell (C.GetOption name) pull
      ∧ pullSocket.SetOption C name value pull = shell (C.SetOption name value) pull
      ∧ (pullSocket.Recv C pull).map Prod.fst = (C.Recv pull.sck).map Prod.fst := by
  refine ⟨?_, ?_, ?_, ?_, ?_, ?_, ?_, ?_⟩
  · simp only [pullSocket.Close, shell]; cases C.Close pull.sck <;> rfl
  · simp only [pullSocket.Recv, shell]; cases C.Recv pull.sck <;> rfl
  · simp only [pullSocket.Listen, shell]; cases C.Listen ep pull.sck <;> rfl
  · simp only [pullSocket.Dial, shell]; cases C.Dial ep pull.sck <;> rfl
  · simp only [pullSocket.Type', shell]; cases C.Type' pull.sck <;> rfl
  · simp only [pullSocket.GetOption, shell]; cases C.GetOption name pull.sck <;> rfl
  · simp only [pullSocket.SetOption, shell]; cases C.SetOption name value pull.sck <;> rfl
  · simp only [pullSocket.Recv]; cases C.Recv pull.sck <;> rfl

/-- C4: when the core constructor records the type it is passed and the core
`Type` returns the recorded type, the socket `NewPull` returns reports the type
PULL, for every context and every list of options. -/
theorem newPull_type_is_pull {κ : Kit} (C : Core κ) (ctx : κ.Ctx) (opts : List κ.Opt)
    (hnew : ∀ ctx typ opts, (C.newSocket ctx typ opts).typ = typ)
    (htype : ∀ s, C.Type' s = some (s.typ, s)) :
    (pullSocket.Type' C (NewPull C ctx opts)).map Prod.fst = some SocketType.Pull := by
  simp [pullSocket.Type', NewPull, htype, hnew]

/-- Witness of `newPull_type_is_pull`: the fair-queue core. -/
theorem newPull_type_is_pull_witness :
    (pullSocket.Type' pullCore (NewPull pullCore () [])).map Prod.fst
      = some SocketType.Pull :=
  newPull_type_is_pull pullCore () [] (fun _ _ _ => rfl) (fun _ => rfl)

/-- C7: `Send` on a PULL socket is rejected atomically: for every message and
every socket it returns at once, the socket after the call is the socket before
it, the error does not depend on the socket, and no operation of the core has a
part in it (the call is the same over any two cores). -/
theorem pull_send_leaves_socket_unchanged {κ : Kit} (C C' : Core κ) (pull : pullSocket κ)
    (msg : Msg) :
    (pullSocket.Send pull msg).isSome = true
      ∧ (pullSocket.Send pull msg).map Prod.snd = some pull
      ∧ (∀ pull' : pullSocket κ,
          (pullSocket.Send pull' msg).map Prod.fst = (pullSocket.Send pull msg).map Prod.fst)
      ∧ (pullSocket.asSocket C).Send msg pull = (pullSocket.asSocket C').Send msg pull := by
  exact ⟨rfl, rfl, fun _ => rfl, rfl⟩

/-- C8: `NewPull` builds its socket as `newSocket(ctx, Pull, opts...)` with
only the writer cleared: the writer is nil for every context and option list,
and every other field of the core socket is as `newSocket` returned it. -/
theorem newPull_clears_only_writer {κ : Kit} (C : Core κ) (ctx : κ.Ctx) (opts : List κ.Opt) :
    (NewPull C ctx opts).sck.w = none
      ∧ (NewPull C ctx opts).sck.typ = (C.newSocket ctx SocketType.Pull opts).typ
      ∧ (NewPull C ctx opts).sck.props = (C.newSocket ctx SocketType.Pull opts).props
      ∧ (NewPull C ctx opts).sck.listeners = (C.newSocket ctx SocketType.Pull opts).listeners
      ∧ (NewPull C ctx opts).sck.conns = (C.newSocket ctx SocketType.Pull opts).conns
      ∧ (NewPull C ctx opts).sck.r = (C.newSocket ctx SocketType.Pull opts).r
      ∧ (NewPull C ctx opts).sck.closed = (C.newSocket ctx SocketType.Pull opts).closed := by
  exact ⟨rfl, rfl, rfl, rfl, rfl, rfl, rfl⟩

/-! ## Theorems: the tasks of `TestReqRep` -/

/-- On a request whose first frame is `NAME`, `LANG` or `QUIT` the switch of
the replier picks the expected reply, and clears `loop` exactly for `QUIT`. -/
theorem replierSwitch_of_request (m : Msg) (h : isRequest m = true) :
    ∃ f0 fs, m.Frames = f0 :: fs ∧ expectedReply m = some (replierSwitch f0).1
      ∧ (replierSwitch f0).2 = !isQuit m := by
  obtain ⟨frames⟩ := m
  cases frames with
  | nil => simp [isRequest] at h
  | cons f0 fs =>
    refine ⟨f0, fs, rfl, ?_⟩
    have hNL : bytes "NAME" ≠ bytes "LANG" := by decide
    have hNQ : bytes "NAME" ≠ bytes "QUIT" := by decide
    have hLQ : bytes "LANG" ≠ bytes "QUIT" := by decide
    simp only [isRequest, List.head?_cons, Option.some.injEq, Bool.or_eq_true,
      decide_eq_true_eq] at h
    rcases h with (h | h) | h
    · subst h
      simp [expectedReply, replierSwitch, isQuit, repName, hNQ]
    · subst h
      simp [expectedReply, replierSwitch, isQuit, repLang, hLQ, hNL.symm]
    · subst h
      simp [expectedReply, replierSwitch, isQuit, repQuit, hLQ.symm, hNQ.symm]

/-- One turn of the replier loop on the scripted socket: a request received
without error and answered without error. -/
theorem replierLoop_turn (Sprintf : String → List Msg → String) (err0 : error) (fuel : Nat)
    (s : Script) (m : Msg) (rest : List (Msg × error)) (f0 : Bytes) (fs : List Bytes)
    (hin : s.inbox = (m, none) :: rest) (hf : m.Frames = f0 :: fs)
    (hsend : s.sendErr s.sent.length = none) :
    replierLoop Script.asSocket Sprintf err0 (fuel + 1) s =
      if (replierSwitch f0).2 then
        replierLoop Script.asSocket Sprintf err0 fuel
          { s with inbox := rest, sent := s.sent ++ [(replierSwitch f0).1] }
      else
        Outcome.returned err0 { s with inbox := rest, sent := s.sent ++ [(replierSwitch f0).1] } := by
  simp [replierLoop, Script.asSocket, hin, hf, hsend]

/-- The replier loop works off a run of requests none of which is `QUIT`: it
answers each with the expected reply and is then where a fresh loop would
be. -/
theorem replierLoop_run (Sprintf : String → List Msg → String) (err0 : error) :
    ∀ (pre : List Msg) (s : Script) (rest : List (Msg × error)),
      (∀ k, s.sendErr k = none) →
      (∀ m ∈ pre, isRequest m = true ∧ isQuit m = false) →
      s.inbox = pre.map (fun m => (m, none)) ++ rest →
      ∃ replies : List Msg, replies.map some = pre.map expectedReply ∧
        ∀ fuel, replierLoop Script.asSocket Sprintf err0 (pre.length + fuel) s =
          replierLoop Script.asSocket Sprintf err0 fuel
            { s with inbox := rest, sent := s.sent ++ replies } := by
  intro pre
  induction pre with
  | nil =>
    intro s rest _ _ hin
    refine ⟨[], rfl, fun fuel => ?_⟩
    simp only [List.map_nil, List.nil_append] at hin
    simp [← hin]
  | cons m pre ih =>
    intro s rest hsend hpre hin
    obtain ⟨hreq, hquit⟩ := hpre m (List.mem_cons_self _ _)
    obtain ⟨f0, fs, hf, hexp, hloop⟩ := replierSwitch_of_request m hreq
    rw [hquit] at hloop
    obtain ⟨replies, hrep, hrun⟩ := ih
      { s with inbox := pre.map (fun m => (m, none)) ++ rest,
               sent := s.sent ++ [(replierSwitch f0).1] } rest hsend
      (fun m hm => hpre m (List.mem_cons_of_mem _ hm)) rfl
    refine ⟨(replierSwitch f0).1 :: replies, ?_, fun fuel => ?_⟩
    · simp [hrep, hexp]
    · have hturn := replierLoop_turn Sprintf err0 (pre.length + fuel) s m
        (pre.map (fun m => (m, none)) ++ rest) f0 fs (by simpa using hin) hf (hsend _)
      simp only [hloop, Bool.not_false, if_true] at hturn
      have hlen : (m :: pre).length + fuel = (pre.length + fuel) + 1 := by
        simp only [List.length_cons]; omega
      rw [hlen, hturn, hrun]
      simp

/-- C10: the replier loop answers requests in order and stops exactly at
`QUIT`.  The socket hands over, without error, the requests `reqs` (first
frames among `NAME`, `LANG`, `QUIT`) and every reply is sent without error.
With `n` requests before the first `QUIT`: after `n` turns the loop is still
running, has received exactly those `n` requests and has sent their `n`
replies, the `k`-th being `zmq4`, `Go` or `bye` as the `k`-th request asks;
when the request after them is `QUIT`, the task returns nil on the next turn,
having sent `n + 1` replies, the last one `bye`, and having received nothing
after the `QUIT`. -/
theorem replier_answers_in_order_until_quit (Sprintf : String → List Msg → String)
    (ep : String) (s : Script) (reqs : List Msg) (post : List (Msg × error)) (n : Nat)
    (hlisten : s.listen = none) (hsend : ∀ k, s.sendErr k = none)
    (hin : s.inbox = reqs.map (fun m => (m, none)) ++ post)
    (hreq : ∀ m ∈ reqs, isRequest m = true)
    (hn : n ≤ reqs.length) (hpre : ∀ m ∈ reqs.take n, isQuit m = false) :
    (∃ replies : List Msg,
        replies.map some = (reqs.take n).map expectedReply ∧ replies.length = n ∧
        replier Script.asSocket Sprintf ep n s =
          Outcome.running { s with inbox := (reqs.drop n).map (fun m => (m, none)) ++ post,
                                   sent := s.sent ++ replies })
      ∧ ∀ q, reqs[n]? = some q → isQuit q = true →
          ∃ replies : List Msg,
            replies.map some = (reqs.take (n + 1)).map expectedReply ∧
            replies.length = n + 1 ∧ replies.getLast? = some repQuit ∧
            ∀ fuel, n < fuel →
              replier Script.asSocket Sprintf ep fuel s =
                Outcome.returned none
                  { s with inbox := (reqs.drop (n + 1)).map (fun m => (m, none)) ++ post,
                           sent := s.sent ++ replies } := by
  have hlen : (reqs.take n).length = n := by simp [hn]
  have hsplit : s.inbox = (reqs.take n).map (fun m => (m, none))
      ++ ((reqs.drop n).map (fun m => (m, none)) ++ post) := by
    rw [hin, ← List.append_assoc, ← List.map_append, List.take_append_drop]
  have hmem : ∀ m ∈ reqs.take n, isRequest m = true ∧ isQuit m = false :=
    fun m hm => ⟨hreq m (List.mem_of_mem_take hm), hpre m hm⟩
  have hreplier : ∀ fuel, replier Script.asSocket Sprintf ep fuel s
      = replierLoop Script.asSocket Sprintf none fuel s := by
    intro fuel
    simp [replier, Script.asSocket, hlisten]
  constructor
  · obtain ⟨replies, hrep, hrun⟩ := replierLoop_run Sprintf none (reqs.take n) s _ hsend
      hmem hsplit
    refine ⟨replies, hrep, ?_, ?_⟩
    · have := congrArg List.length hrep
      simpa [hn] using this
    · have h0 := hrun 0
      rw [hlen, Nat.add_zero] at h0
      rw [hreplier, h0]
      rfl
  · intro q hq hquit
    have hnlt : n < reqs.length := by
      rcases Nat.lt_or_ge n reqs.length with h | h
      · exact h
      · rw [List.getElem?_eq_none h] at hq
        cases hq
    have hget : reqs[n] = q := by
      rw [List.getElem?_eq_getElem hnlt] at hq
      exact Option.some.inj hq
    have hdrop : reqs.drop n = q :: reqs.drop (n + 1) := by
      rw [← hget]
      exact List.drop_eq_getElem_cons hnlt
    have htake : reqs.take (n + 1) = reqs.take n ++ [q] := by
      rw [List.take_succ, hq]
      rfl
    obtain ⟨f0, fs, hf, hexp, hloop⟩ :=
      replierSwitch_of_request q (hreq q (hget ▸ List.getElem_mem _))
    rw [hquit] at hloop
    have hrepQuit : (replierSwitch f0).1 = repQuit := by
      have h1 : q.Frames.head? = some (bytes "QUIT") := by simpa [isQuit] using hquit
      rw [hf] at h1
      simp only [List.head?_cons, Option.some.injEq] at h1
      subst h1
      decide
    have hsplit2 : s.inbox = (reqs.take n).map (fun m => (m, none))
        ++ ((q, none) :: ((reqs.drop (n + 1)).map (fun m => (m, none)) ++ post)) := by
      rw [hsplit, hdrop]
      rfl
    obtain ⟨replies, hrep, hrun⟩ := replierLoop_run Sprintf none (reqs.take n) s _ hsend
      hmem hsplit2
    have hreplen : replies.length = n := by
      have := congrArg List.length hrep
      simpa [hn] using this
    refine ⟨replies ++ [repQuit], ?_, ?_, ?_, ?_⟩
    · rw [htake]
      simp [hrep, hexp, hrepQuit]
    · simp [hreplen]
    · simp
    · intro fuel hfuel
      obtain ⟨k, rfl⟩ : ∃ k, fuel = n + (k + 1) := ⟨fuel - n - 1, by omega⟩
      have h1 := hrun (k + 1)
      rw [hlen] at h1
      rw [hreplier, h1]
      have hturn := replierLoop_turn Sprintf none k
        { s with inbox := (q, none) :: ((reqs.drop (n + 1)).map (fun m => (m, none)) ++ post),
                 sent := s.sent ++ replies } q
        ((reqs.drop (n + 1)).map (fun m => (m, none)) ++ post) f0 fs rfl hf (hsend _)
      rw [hturn]
      simp [hloop, hrepQuit, List.append_assoc]

/-! ## Theorems: the fair-queue receive -/

/-- The scan stops at once on a cursor that stands at a ready connection. -/
theorem fairScan_hit (conns : List Peer) (left c : Nat) (m : Msg) (rest : List Msg)
    (h : conns[c % conns.length]? = some { inq := m :: rest }) :
    fairScan conns (left + 1) c = some (c % conns.length, m, rest) := by
  simp [fairScan, h]

/-- `Recv` of the fair-queue core on an open PULL socket is the fair queue. -/
theorem pull_recv_fairQueue {κ : Kit} (base : Core (fqKit κ)) (pull : pullSocket (fqKit κ))
    (htyp : pull.sck.typ = SocketType.Pull) (hopen : pull.sck.closed = false) :
    pullSocket.Recv (fairQueueCore base) pull =
      (fairQueue pull.sck.r pull.sck.conns).map
        (fun res => ((res.1, none), { sck := { pull.sck with conns := res.2.1, r := res.2.2 } })) := by
  simp only [pullSocket.Recv, fairQueueCore, hopen, htyp]
  cases fairQueue pull.sck.r pull.sck.conns <;> rfl

/-- The fair queue on a cursor that stands at a connection with one queued
message, between the connections `done` and `post`. -/
theorem fairQueue_at_ready (done post : List Peer) (m : Msg) (c : Nat)
    (hc : c % (done.length + (post.length + 1)) = done.length) :
    fairQueue c (done ++ ({ inq := [m] } : Peer) :: post) =
      some (m, (done ++ [({ inq := [] } : Peer)]) ++ post,
        (done.length + 1) % (done.length + (post.length + 1))) := by
  have hlen : (done ++ ({ inq := [m] } : Peer) :: post).length
      = (done.length + post.length) + 1 := by
    simp only [List.length_append, List.length_cons]; omega
  have hget : (done ++ ({ inq := [m] } : Peer) :: post)[c %
      (done ++ ({ inq := [m] } : Peer) :: post).length]? = some { inq := [m] } := by
    rw [hlen, show done.length + post.length + 1 = done.length + (post.length + 1) by omega, hc,
      List.getElem?_append_right (Nat.le_refl _)]
    simp
  unfold fairQueue
  rw [hlen, fairScan_hit _ _ _ m [] hget, hlen]
  simp only [show done.length + post.length + 1 = done.length + (post.length + 1) by omega, hc]
  simp

/-- A run of `Recv` calls over a stretch of ready connections: with the
cursor at the first of the connections `live`, each holding one message, as
many calls as there are connections in `live` return their messages in ring
order, empty their queues, touch no other connection and leave the cursor
behind the stretch. -/
theorem recvN_segment {κ : Kit} (base : Core (fqKit κ)) (sk : socket (fqKit κ))
    (htyp : sk.typ = SocketType.Pull) (hopen : sk.closed = false) (post : List Peer) :
    ∀ (live : List Msg) (done : List Peer) (c : Nat),
      c % (done.length + (live.length + post.length))
        = done.length % (done.length + (live.length + post.length)) →
      ∃ c' : Nat,
        c' % (done.length + (live.length + post.length))
          = (done.length + live.length) % (done.length + (live.length + post.length)) ∧
        recvN (fairQueueCore base) live.length
            { sck := { sk with
                conns := done ++ (live.map (fun m => ({ inq := [m] } : Peer)) ++ post),
                r := c } }
          = some (live.map (fun m => (m, none)),
              { sck := { sk with
                  conns := done ++ (live.map (fun _ => ({ inq := [] } : Peer)) ++ post),
                  r := c' } }) := by
  intro live
  induction live with
  | nil =>
    intro done c hc
    exact ⟨c, by simpa using hc, rfl⟩
  | cons m live ih =>
    intro done c hc
    have e1 : (done ++ [({ inq := [] } : Peer)]).length = done.length + 1 := by simp
    have e2 : (m :: live).length = live.length + 1 := rfl
    have e3 : done.length + 1 + (live.length + post.length)
        = done.length + (live.length + 1 + post.length) := by omega
    have hc' : c % (done.length + ((live.map (fun m => ({ inq := [m] } : Peer)) ++ post).length + 1))
        = done.length := by
      have e4 : (live.map (fun m => ({ inq := [m] } : Peer)) ++ post).length + 1
          = live.length + 1 + post.length := by
        simp only [List.length_append, List.length_map]; omega
      rw [e4, ← e2, hc]
      exact Nat.mod_eq_of_lt (by rw [e2]; omega)
    have hq := fairQueue_at_ready done (live.map (fun m => ({ inq := [m] } : Peer)) ++ post) m c hc'
    obtain ⟨c', hc'', hrun⟩ := ih (done ++ [({ inq := [] } : Peer)])
      ((done.length + 1) % (done.length + ((live.map (fun m => ({ inq := [m] } : Peer)) ++ post).length + 1)))
      (by
        have e4 : done.length + ((live.map (fun m => ({ inq := [m] } : Peer)) ++ post).length + 1)
            = done.length + 1 + (live.length + post.length) := by
          simp only [List.length_append, List.length_map]; omega
        rw [e1, e4, Nat.mod_mod])
    refine ⟨c', ?_, ?_⟩
    · rw [e1, e3] at hc''
      rw [e2, hc'']
      congr 1
      omega
    · rw [e2]
      simp only [recvN]
      rw [pull_recv_fairQueue base
        { sck := { sk with
            conns := done ++ ((m :: live).map (fun m => ({ inq := [m] } : Peer)) ++ post),
            r := c } } htyp hopen]
      simp only [List.map_cons, List.cons_append]
      rw [hq]
      simp only [Option.map_some', List.append_assoc, List.singleton_append]
      simp only [List.append_assoc, List.singleton_append] at hrun
      rw [hrun]

/-- Two runs of `Recv` calls, one after the other, are one run. -/
theorem recvN_add {κ : Kit} (C : Core κ) (b : Nat) :
    ∀ (a : Nat) (pull p1 p2 : pullSocket κ) (o1 o2 : List (Msg × error)),
      recvN C a pull = some (o1, p1) → recvN C b p1 = some (o2, p2) →
      recvN C (a + b) pull = some (o1 ++ o2, p2) := by
  intro a
  induction a with
  | zero =>
    intro pull p1 p2 o1 o2 h1 h2
    simp only [recvN, Option.some.injEq, Prod.mk.injEq] at h1
    obtain ⟨rfl, rfl⟩ := h1
    simpa using h2
  | succ a ih =>
    intro pull p1 p2 o1 o2 h1 h2
    rw [show a + 1 + b = (a + b) + 1 by omega]
    simp only [recvN] at h1 ⊢
    cases hr : pullSocket.Recv C pull with
    | none => simp [hr] at h1
    | some res =>
      obtain ⟨r0, p0⟩ := res
      simp only [hr] at h1 ⊢
      cases hn : recvN C a p0 with
      | none => simp [hn] at h1
      | some res' =>
        obtain ⟨o, p⟩ := res'
        simp only [hn, Option.some.injEq, Prod.mk.injEq] at h1
        obtain ⟨rfl, rfl⟩ := h1
        rw [ih p0 p p2 o o2 hn h2]
        rfl

/-- The scan finds nothing when no connection has a queued message. -/
theorem fairScan_none (conns : List Peer) (h : ∀ p ∈ conns, p.inq = []) :
    ∀ (left i : Nat), fairScan conns left i = none := by
  intro left
  induction left with
  | zero => intro i; rfl
  | succ left ih =>
    intro i
    unfold fairScan
    cases hget : conns[i % conns.length]? with
    | none => simpa using ih (i + 1)
    | some p =>
      have hp := h p (List.getElem?_mem hget)
      obtain ⟨inq⟩ := p
      simp only at hp
      subst hp
      simpa using ih (i + 1)

/-- C6: fair-queued receive on PULL.  With one ready peer for each message of
`msgs`, each peer having sent exactly its one message, as many consecutive
calls of `Recv` as there are peers all return without error; the messages they
return are exactly `msgs`, none repeated and none lost (a permutation, namely
`msgs` in ring order from the cursor), one from each peer (every queue is
empty afterwards), and a further `Recv` finds nothing to return. -/
theorem pull_recv_fair_queue {κ : Kit} (base : Core (fqKit κ)) (pull : pullSocket (fqKit κ))
    (msgs : List Msg)
    (htyp : pull.sck.typ = SocketType.Pull) (hopen : pull.sck.closed = false)
    (hconns : pull.sck.conns = msgs.map (fun m => ({ inq := [m] } : Peer))) :
    ∃ (out : List (Msg × error)) (pull' : pullSocket (fqKit κ)),
      recvN (fairQueueCore base) msgs.length pull = some (out, pull')
      ∧ List.Perm (out.map Prod.fst) msgs
      ∧ (∀ res ∈ out, res.2 = none)
      ∧ out.map Prod.fst = msgs.rotate pull.sck.r
      ∧ pull'.sck.conns = msgs.map (fun _ => ({ inq := [] } : Peer))
      ∧ pullSocket.Recv (fairQueueCore base) pull' = none := by
  obtain ⟨sk⟩ := pull
  simp only at htyp hopen hconns
  obtain ⟨cur, hcur⟩ : ∃ cur : Nat, sk.r = cur := ⟨sk.r, rfl⟩
  have hblock : ∀ c : Nat, pullSocket.Recv (fairQueueCore base)
      { sck := { sk with conns := msgs.map (fun _ => ({ inq := [] } : Peer)), r := c } }
        = none := by
    intro c
    rw [pull_recv_fairQueue base
      { sck := { sk with conns := msgs.map (fun _ => ({ inq := [] } : Peer)), r := c } }
      htyp hopen]
    simp only [fairQueue]
    rw [fairScan_none _ (by simp)]
    rfl
  have hform : ∀ conns : List Peer, sk.conns = conns →
      ({ sck := sk } : pullSocket (fqKit κ)) = { sck := { sk with conns := conns, r := cur } } := by
    intro conns h
    subst h
    subst hcur
    rfl
  simp only [hcur]
  rcases Nat.eq_zero_or_pos msgs.length with h0 | hpos
  · have hnil : msgs = [] := List.length_eq_zero.mp h0
    subst hnil
    refine ⟨[], { sck := sk }, rfl, by simp, by simp, by simp, hconns, ?_⟩
    rw [hform _ hconns]
    exact hblock cur
  · obtain ⟨k, hkdef⟩ : ∃ k : Nat, k = cur % msgs.length := ⟨_, rfl⟩
    have hk : k < msgs.length := hkdef ▸ Nat.mod_lt _ hpos
    have hkle : k ≤ msgs.length := Nat.le_of_lt hk
    have htake : (msgs.take k).length = k := by simp [hkle]
    have hdrop : (msgs.drop k).length = msgs.length - k := by simp
    have hsum : k + (msgs.length - k) = msgs.length := by omega
    -- first stretch: from the cursor to the end of the ring
    obtain ⟨c1, hc1, hrun1⟩ := recvN_segment base sk htyp hopen []
      (msgs.drop k) ((msgs.take k).map (fun m => ({ inq := [m] } : Peer))) cur
      (by
        simp only [List.length_map, htake, hdrop, List.length_nil, Nat.add_zero]
        rw [hsum, hkdef, Nat.mod_mod])
    -- second stretch: from the start of the ring up to the cursor
    obtain ⟨c2, _, hrun2⟩ := recvN_segment base sk htyp hopen
      ((msgs.drop k).map (fun _ => ({ inq := [] } : Peer))) (msgs.take k) [] c1
      (by
        simp only [List.length_map, htake, hdrop, List.length_nil, Nat.add_zero] at hc1
        rw [hsum, Nat.mod_self] at hc1
        simp only [List.length_nil, List.length_map, htake, hdrop, Nat.zero_add]
        rw [hsum, hc1, Nat.zero_mod])
    have hstart : ({ sck := sk } : pullSocket (fqKit κ)) = { sck := { sk with
        conns := (msgs.take k).map (fun m => ({ inq := [m] } : Peer))
          ++ ((msgs.drop k).map (fun m => ({ inq := [m] } : Peer)) ++ []),
        r := cur } } := by
      apply hform
      rw [hconns, List.append_nil, ← List.map_append, List.take_append_drop]
    simp only [List.append_nil, List.nil_append] at hrun1 hrun2 hstart
    have hrun := recvN_add (fairQueueCore base) _ _ _ _ _ _ _ hrun1 hrun2
    rw [← hstart, htake, hdrop, show msgs.length - k + k = msgs.length by omega,
      ← List.map_append, ← List.map_append, List.take_append_drop] at hrun
    refine ⟨_, _, hrun, ?_, ?_, ?_, rfl, hblock c2⟩
    · rw [List.map_map]
      simp only [Function.comp_def, List.map_id']
      rw [← List.rotate_eq_drop_append_take hkle]
      exact List.rotate_perm _ _
    · intro res hres
      simp only [List.mem_map] at hres
      obtain ⟨m, _, rfl⟩ := hres
      rfl
    · rw [List.map_map]
      simp only [Function.comp_def, List.map_id']
      rw [← List.rotate_eq_drop_append_take hkle, hkdef, List.rotate_mod]

/-- Witness of `pull_recv_fair_queue`: three peers holding `NAME`, `LANG` and
`QUIT`, the cursor at the second. -/
theorem pull_recv_fair_queue_witness :
    ∃ (out : List (Msg × error)) (pull' : pullSocket (fqKit unitKit)),
      recvN pullCore [reqName, reqLang, reqQuit].length
          (pullWithPeers [reqName, reqLang, reqQuit] 1) = some (out, pull')
      ∧ List.Perm (out.map Prod.fst) [reqName, reqLang, reqQuit]
      ∧ (∀ res ∈ out, res.2 = none)
      ∧ out.map Prod.fst
          = [reqName, reqLang, reqQuit].rotate (pullWithPeers [reqName, reqLang, reqQuit] 1).sck.r
      ∧ pull'.sck.conns = [reqName, reqLang, reqQuit].map (fun _ => ({ inq := [] } : Peer))
      ∧ pullSocket.Recv pullCore pull' = none :=
  pull_recv_fair_queue idleCore (pullWithPeers [reqName, reqLang, reqQuit] 1)
    [reqName, reqLang, reqQuit] rfl rfl rfl

/-! ## Theorems: the requester and the replier on scripted sockets -/

/-- Witness of `replier_answers_in_order_until_quit`: `NAME`, `LANG`, `QUIT`,
`NAME` arrive; two requests precede the first `QUIT`. -/
theorem replier_answers_in_order_until_quit_witness :
    (∃ replies : List Msg,
        replies.map some = ([reqName, reqLang, reqQuit, reqName].take 2).map expectedReply ∧
        replies.length = 2 ∧
        replier Script.asSocket (fun format _ => format) "ipc://ipc-req-rep" 2 replierScript =
          Outcome.running { replierScript with
            inbox := ([reqName, reqLang, reqQuit, reqName].drop 2).map (fun m => (m, none)) ++ [],
            sent := replierScript.sent ++ replies })
      ∧ ∀ q, [reqName, reqLang, reqQuit, reqName][2]? = some q → isQuit q = true →
          ∃ replies : List Msg,
            replies.map some = ([reqName, reqLang, reqQuit, reqName].take (2 + 1)).map expectedReply ∧
            replies.length = 2 + 1 ∧ replies.getLast? = some repQuit ∧
            ∀ fuel, 2 < fuel →
              replier Script.asSocket (fun format _ => format) "ipc://ipc-req-rep" fuel
                  replierScript =
                Outcome.returned none { replierScript with
                  inbox := ([reqName, reqLang, reqQuit, reqName].drop (2 + 1)).map
                    (fun m => (m, none)) ++ [],
                  sent := replierScript.sent ++ replies } :=
  replier_answers_in_order_until_quit (fun format _ => format) "ipc://ipc-req-rep"
    replierScript [reqName, reqLang, reqQuit, reqName] [] 2 rfl (fun _ => rfl) rfl
    (by decide) (by decide) (by decide)

/-- When the reply received without error is not the expected one, the
requester loop returns nil: `Wrapf` is handed the nil error of `Recv`. -/
theorem requesterLoop_mismatch_returns_nil {σ Val : Type} (S : Socket σ Val)
    (Sprintf : String → List Msg → String) (round : Msg × Msg) (rest : List (Msg × Msg))
    (err : error) (s s1 s2 : σ) (rep : Msg)
    (hsend : S.Send round.1 s = some (none, s1))
    (hrecv : S.Recv s1 = some ((rep, none), s2))
    (hne : rep ≠ round.2) :
    requesterLoop S Sprintf (round :: rest) err s = Outcome.returned none s2 := by
  simp [requesterLoop, hsend, hrecv, reflect.DeepEqual, hne, errors.Wrapf]

/-- C9 fails on the code: the requester is given the reply `nope`, without
error, where `zmq4` is expected, and returns nil, after one `Send` and one
`Recv`. -/
theorem requester_returns_nil_on_wrong_reply (Sprintf : String → List Msg → String)
    (ep : String) :
    reflect.DeepEqual (NewMsgString "nope") repName = false
      ∧ requester Script.asSocket Sprintf ep wrongReplyScript =
          Outcome.returned none { wrongReplyScript with inbox := [], sent := [reqName] } := by
  refine ⟨by decide, ?_⟩
  have hne : NewMsgString "nope" ≠ (reqName, repName).2 := by decide
  have h := requesterLoop_mismatch_returns_nil Script.asSocket Sprintf (reqName, repName)
    [(reqLang, repLang), (reqQuit, repQuit)] none wrongReplyScript
    { wrongReplyScript with sent := [reqName] }
    { wrongReplyScript with inbox := [], sent := [reqName] } (NewMsgString "nope") rfl rfl hne
  simpa [requester, Script.asSocket, wrongReplyScript, rounds] using h

/-! ## Theorems: the REQ and REP policies over one connection -/

/-- The envelope a REQ socket puts before a message comes off again. -/
theorem splitEnvelope_delimiter (frames : List Bytes) :
    splitEnvelope ([] :: frames) = some ([[]], frames) := by
  simp [splitEnvelope]

/-- One round from rest: both calls of `Send` return nil, the REP socket
receives the request, the REQ socket receives the reply, and the pair is at
rest again. -/
theorem round_from_idle (illegal : GoError) (req rep : Msg) :
    ReqRep.round illegal req rep ReqRep.idle =
      some ({ sendReq := none, served := (req, none), sendRep := none, reply := (rep, none) },
        ReqRep.idle) := by
  simp [ReqRep.round, ReqRep.reqSend, ReqRep.repRecv, ReqRep.repRecv.next, ReqRep.repSend,
    ReqRep.reqRecv, ReqRep.reqRecv.next, ReqRep.idle, splitEnvelope_delimiter, bind,
    Option.bind, pure]

/-- C5: request/reply round trip.  For a REQ socket connected to a REP socket
and every list of requests and replies, each round returns: the request is
sent without error, the `Recv` of the REP socket yields without error a
message whose first frame is the first frame of the request (the request
itself), the reply is sent without error, and the next `Recv` of the REQ socket
yields without error a message equal to the reply; the pair is then at rest
for the next round. -/
theorem reqrep_round_trip (illegal : GoError) (rs : List (Msg × Msg)) :
    ∃ out : List ReqRep.Round,
      ReqRep.run illegal rs ReqRep.idle = some (out, ReqRep.idle)
      ∧ List.Forall₂
          (fun (r : Msg × Msg) (res : ReqRep.Round) =>
            res.sendReq = none ∧ res.served.2 = none
              ∧ res.served.1.Frames.head? = r.1.Frames.head? ∧ res.served.1 = r.1
              ∧ res.sendRep = none ∧ res.reply.2 = none
              ∧ reflect.DeepEqual res.reply.1 r.2 = true)
          rs out := by
  induction rs with
  | nil => exact ⟨[], rfl, List.Forall₂.nil⟩
  | cons r rs ih =>
    obtain ⟨req, rep⟩ := r
    obtain ⟨out, hrun, hall⟩ := ih
    refine ⟨{ sendReq := none, served := (req, none), sendRep := none, reply := (rep, none) }
      :: out, ?_, List.Forall₂.cons ?_ hall⟩
    · simp only [ReqRep.run, round_from_idle, hrun]
    · simp [reflect.DeepEqual]

/-- Scenario S1 on the pair: `NAME` is answered `zmq4`, `LANG` is answered `Go`
and `QUIT` is answered `bye`, in that order. -/
theorem reqrep_round_trip_witness :
    ReqRep.run (GoError.kind ErrorKind.ProtocolViolation) rounds ReqRep.idle =
      some ([{ sendReq := none, served := (reqName, none), sendRep := none,
               reply := (repName, none) },
             { sendReq := none, served := (reqLang, none), sendRep := none,
               reply := (repLang, none) },
             { sendReq := none, served := (reqQuit, none), sendRep := none,
               reply := (repQuit, none) }], ReqRep.idle)
      ∧ ∃ out : List ReqRep.Round,
          ReqRep.run (GoError.kind ErrorKind.ProtocolViolation) rounds ReqRep.idle
            = some (out, ReqRep.idle)
          ∧ List.Forall₂
              (fun (r : Msg × Msg) (res : ReqRep.Round) =>
                res.sendReq = none ∧ res.served.2 = none
                  ∧ res.served.1.Frames.head? = r.1.Frames.head? ∧ res.served.1 = r.1
                  ∧ res.sendRep = none ∧ res.reply.2 = none
                  ∧ reflect.DeepEqual res.reply.1 r.2 = true)
              rounds out :=
  ⟨by decide, reqrep_round_trip (GoError.kind ErrorKind.ProtocolViolation) rounds⟩

end Zmq4
